import Mathlib

/-!
Shallow embedding of the snapask local conversation persistence layer:
the SQLite-backed `ConversationService` (conversation/message CRUD),
the `DatabaseService` migrator, and the initial schema migration
(`001_initial_schema.js`).

Modelling conventions:
* A database is a pair of row lists kept in insertion order, mirroring the
  two tables created by migration 001.  SQLite `INTEGER` flag columns that
  the service only ever stores as 0/1 (`starred`, `archived`) are modelled
  as `Bool`; the `error` column keeps its raw 0/1 integer encoding because
  `saveMessage` stores `error ? 1 : 0` and the read path tests `=== 1`.
* `randomUUID()` and `Date.now()` results are explicit arguments of each
  operation.  `Date.now()` is non-decreasing across successive calls, which
  theorems about call sequences assume where ordering matters.
* SQL `ORDER BY` is modelled by a stable insertion sort (`sortBy`), so rows
  with equal sort keys keep insertion order, matching the behaviour of a
  full table scan on these tables.
* Statements that can violate a PRIMARY KEY or FOREIGN KEY constraint
  return `Option`, with `none` for the thrown engine error.  The FOREIGN
  KEY on `messages.conversation_id` (declared `ON DELETE CASCADE` in
  migration 001) is enforced because `DatabaseService.initialize` runs
  `pragma foreign_keys = ON`; `deleteConversation` therefore removes child
  message rows as part of the single `DELETE` on `conversations`.
-/

namespace SnapAsk

/-! ### Stable sorting, modelling SQL ORDER BY -/

/-- Insert `x` into `l`, placing it before the first element `y` with
`le x y`; keeps insertion order among elements with equal keys. -/
def insertLe (le : α → α → Bool) (x : α) : List α → List α
  | [] => [x]
  | y :: ys => if le x y then x :: y :: ys else y :: insertLe le x ys

/-- Stable insertion sort; models an SQL `ORDER BY` over rows held in
insertion order. -/
def sortBy (le : α → α → Bool) : List α → List α
  | [] => []
  | x :: xs => insertLe le x (sortBy le xs)

theorem insertLe_perm (le : α → α → Bool) (x : α) (l : List α) :
    List.Perm (insertLe le x l) (x :: l) := by
  induction l with
  | nil => simp [insertLe]
  | cons y ys ih =>
    simp only [insertLe]
    by_cases h : le x y
    · simp [h]
    · simp only [h, if_neg]
      exact (List.Perm.cons y ih).trans (List.Perm.swap x y ys)

theorem sortBy_perm (le : α → α → Bool) (l : List α) :
    List.Perm (sortBy le l) l := by
  induction l with
  | nil => simp [sortBy]
  | cons x xs ih =>
    exact (insertLe_perm le x (sortBy le xs)).trans (List.Perm.cons x ih)

theorem length_sortBy (le : α → α → Bool) (l : List α) :
    (sortBy le l).length = l.length :=
  (sortBy_perm le l).length_eq

theorem mem_sortBy {le : α → α → Bool} {x : α} {l : List α} :
    x ∈ sortBy le l ↔ x ∈ l :=
  (sortBy_perm le l).mem_iff

theorem insertLe_sorted (le : α → α → Bool)
    (htot : ∀ a b, le a b ∨ le b a)
    (htrans : ∀ a b c, le a b → le b c → le a c)
    (x : α) (l : List α) (h : List.Pairwise (fun a b => le a b) l) :
    List.Pairwise (fun a b => le a b) (insertLe le x l) := by
  induction l with
  | nil => simp [insertLe]
  | cons y ys ih =>
    obtain ⟨hy, hys⟩ := List.pairwise_cons.mp h
    simp only [insertLe]
    by_cases hxy : le x y
    · rw [if_pos hxy]
      refine List.Pairwise.cons ?_ (List.Pairwise.cons hy hys)
      intro b hb
      rcases List.mem_cons.mp hb with rfl | hb
      · exact hxy
      · exact htrans x y b hxy (hy b hb)
    · rw [if_neg hxy]
      refine List.Pairwise.cons ?_ (ih hys)
      intro b hb
      rcases List.mem_cons.mp ((insertLe_perm le x ys).mem_iff.mp hb) with h1 | h1
      · rw [h1]
        rcases htot x y with h2 | h2
        · exact absurd h2 hxy
        · exact h2
      · exact hy b h1

theorem sortBy_sorted (le : α → α → Bool)
    (htot : ∀ a b, le a b ∨ le b a)
    (htrans : ∀ a b c, le a b → le b c → le a c)
    (l : List α) :
    List.Pairwise (fun a b => le a b) (sortBy le l) := by
  induction l with
  | nil => simp [sortBy]
  | cons x xs ih => exact insertLe_sorted le htot htrans x (sortBy le xs) ih

theorem sortBy_eq_self_of_sorted {le : α → α → Bool} {l : List α}
    (h : List.Pairwise (fun a b => le a b) l) : sortBy le l = l := by
  induction l with
  | nil => rfl
  | cons x xs ih =>
    obtain ⟨hx, hxs⟩ := List.pairwise_cons.mp h
    simp only [sortBy, ih hxs]
    cases xs with
    | nil => rfl
    | cons y ys => simp [insertLe, hx y (List.mem_cons_self y ys)]

/-! ### JavaScript string helpers

Character-list models of the string operations the service uses:
`String.prototype.trim` and `substring(0, n)`. -/

/-- Model of the JavaScript `trim()`: drop whitespace from both ends. -/
def jsTrim (s : String) : String :=
  String.mk (((s.data.dropWhile Char.isWhitespace).reverse.dropWhile
    Char.isWhitespace).reverse)

/-- Model of the JavaScript `substring(0, n)`: the first `n` characters. -/
def jsSubstring (s : String) (n : Nat) : String :=
  String.mk (s.data.take n)

/-- Number of characters of a string, as `str.length` reads it. -/
def jsLength (s : String) : Nat := s.data.length

theorem jsLength_jsSubstring (s : String) (n : Nat) :
    jsLength (jsSubstring s n) = min n (jsLength s) := by
  simp [jsLength, jsSubstring]

/-! ### Data model

Rows of the two tables created by `001_initial_schema.js`, in declaration
order of their columns. -/

/-- Row of the `conversations` table. -/
structure ConversationRow where
  id : String
  screenshot_data_url : Option String
  screenshot_hash : Option String
  title : Option String
  created_at : Nat
  updated_at : Nat
  message_count : Nat
  starred : Bool
  archived : Bool
deriving Repr, DecidableEq

/-- Row of the `messages` table; `error` keeps the stored 0/1 integer. -/
structure MessageRow where
  id : String
  conversation_id : String
  role : String
  content : String
  timestamp : Nat
  error : Nat
deriving Repr, DecidableEq

/-- Database state: both tables, rows in insertion order. -/
structure Db where
  conversations : List ConversationRow
  messages : List MessageRow
deriving Repr, DecidableEq

/-- The foreign-key invariant the engine enforces with
`pragma foreign_keys = ON`: every message references an existing
conversation. -/
def FkOk (db : Db) : Prop :=
  ∀ m ∈ db.messages, ∃ c ∈ db.conversations, c.id = m.conversation_id

/-! ### ConversationService -/

/-- Stand-in for `createHash('sha256')...digest('hex')`; no claim inspects
digest values, so the SHA-256 digest is modelled by an injective tagging
function. -/
def calculateHash (dataUrl : String) : String :=
  "sha256-hex:" ++ dataUrl

/-- Result shape of `saveMessage`. -/
structure SavedMessage where
  id : String
  timestamp : Nat
deriving Repr, DecidableEq

/-- Result shape of `createConversation`. -/
structure CreatedConversation where
  id : String
  created_at : Nat
deriving Repr, DecidableEq

/-- ConversationService.createConversation: one INSERT into
`conversations` with `message_count = 0` and both timestamps set to now.
`none` models the engine error thrown when the generated id collides with
an existing PRIMARY KEY. The `screenshotDataUrl` argument is `none` for
the JavaScript falsy inputs (`null`/`undefined`), for which the code
stores NULL and skips the hash. -/
def createConversation (db : Db) (screenshotDataUrl : Option String)
    (id : String) (now : Nat) : Option (Db × CreatedConversation) :=
  if db.conversations.any (fun c => c.id == id) then none
  else
    some ({ db with
              conversations := db.conversations ++
                [{ id := id
                   screenshot_data_url := screenshotDataUrl
                   screenshot_hash := screenshotDataUrl.map calculateHash
                   title := none
                   created_at := now
                   updated_at := now
                   message_count := 0
                   starred := false
                   archived := false }] },
          { id := id, created_at := now })

/-- ConversationService.updateConversationTimestamp: UPDATE of
`updated_at` on the rows matching the id. -/
def updateConversationTimestamp (db : Db) (conversationId : String)
    (now : Nat) : Db :=
  { db with
      conversations := db.conversations.map fun c =>
        if c.id == conversationId then { c with updated_at := now } else c }

/-- ConversationService.incrementMessageCount: UPDATE of
`message_count = message_count + 1` on the rows matching the id. -/
def incrementMessageCount (db : Db) (conversationId : String) : Db :=
  { db with
      conversations := db.conversations.map fun c =>
        if c.id == conversationId then
          { c with message_count := c.message_count + 1 }
        else c }

/-- ConversationService.saveMessage: INSERT into `messages` (with
`error ? 1 : 0`), then `updateConversationTimestamp`, then
`incrementMessageCount`. No role validation is performed. `none` models
the engine error for a duplicate message id (PRIMARY KEY) or a missing
parent conversation (FOREIGN KEY), in which case nothing is written. -/
def saveMessage (db : Db) (conversationId role content : String)
    (error : Bool) (msgId : String) (now : Nat) :
    Option (Db × SavedMessage) :=
  if db.messages.any (fun m => m.id == msgId) then none
  else if db.conversations.any (fun c => c.id == conversationId) then
    let db1 : Db :=
      { db with
          messages := db.messages ++
            [{ id := msgId
               conversation_id := conversationId
               role := role
               content := content
               timestamp := now
               error := if error then 1 else 0 }] }
    let db2 := updateConversationTimestamp db1 conversationId now
    let db3 := incrementMessageCount db2 conversationId
    some (db3, { id := msgId, timestamp := now })
  else none

/-- ConversationService.getConversation: `SELECT * FROM conversations
WHERE id = ?` via `stmt.get`, so the first matching row or the JavaScript
not-found signal (`undefined`, modelled as `none`). -/
def getConversation (db : Db) (conversationId : String) :
    Option ConversationRow :=
  db.conversations.find? (fun c => c.id == conversationId)

/-- Comparison used by `ORDER BY timestamp ASC` on messages. -/
def tsLe (a b : MessageRow) : Bool :=
  a.timestamp ≤ b.timestamp

/-- Message shape handed to the UI by getConversationWithMessages. -/
structure UiMessage where
  id : String
  prompt : Option String
  answer : Option String
  role : String
  content : String
  timestamp : Nat
  error : Bool
deriving Repr, DecidableEq

/-- Per-message normalization done by getConversationWithMessages:
`prompt`/`answer` are `undefined` unless the role matches, and the stored
0/1 `error` column becomes the boolean `msg.error === 1`. -/
def toUiMessage (m : MessageRow) : UiMessage :=
  { id := m.id
    prompt := if m.role == "user" then some m.content else none
    answer := if m.role == "assistant" then some m.content else none
    role := m.role
    content := m.content
    timestamp := m.timestamp
    error := m.error == 1 }

/-- Result shape of getConversationWithMessages: the conversation row with
a `messages` array attached. -/
structure ConversationWithMessages where
  row : ConversationRow
  messages : List UiMessage
deriving Repr, DecidableEq

/-- ConversationService.getConversationWithMessages: not-found signal when
the conversation is missing; otherwise the row plus its messages selected
by conversation id, ordered by timestamp ascending, normalized for the
UI. -/
def getConversationWithMessages (db : Db) (conversationId : String) :
    Option ConversationWithMessages :=
  (getConversation db conversationId).map fun c =>
    { row := c
      messages :=
        (sortBy tsLe (db.messages.filter
          (fun m => m.conversation_id == conversationId))).map toUiMessage }

/-- ConversationService.generateTitle: the JavaScript guard `!firstPrompt`
is true for a missing argument and for the empty string, both returning
the fallback literal; otherwise trim, truncate to 50 characters, and
append an ellipsis marker exactly when truncation shortened the trimmed
text. -/
def generateTitle (firstPrompt : Option String) : String :=
  match firstPrompt with
  | none => "Untitled Conversation"
  | some p =>
    if p == "" then "Untitled Conversation"
    else
      let title := jsSubstring (jsTrim p) 50
      if jsLength title < jsLength (jsTrim p) then title ++ "..." else title

/-- Filters argument of getAllConversations; `none` models an absent
(`undefined`) field. -/
structure Filters where
  archived : Option Bool := none
  starred : Option Bool := none
deriving Repr, DecidableEq

/-- Archived part of the WHERE clause built by getAllConversations:
`filters.archived === true` keeps archived rows only; `=== false` and the
fallthrough branch both keep non-archived rows only. -/
def archivedClause (filters : Filters) (c : ConversationRow) : Bool :=
  match filters.archived with
  | some true => c.archived
  | some false => !c.archived
  | none => !c.archived

/-- Starred part of the WHERE clause: only `filters.starred === true` adds
a restriction. -/
def starredClause (filters : Filters) (c : ConversationRow) : Bool :=
  match filters.starred with
  | some true => c.starred
  | _ => true

/-- Comparison used by `ORDER BY c.updated_at DESC`. -/
def updatedAtDesc (a b : ConversationRow) : Bool :=
  b.updated_at ≤ a.updated_at

/-- Correlated subquery `SELECT content FROM messages WHERE
conversation_id = ? AND role = ? ORDER BY timestamp ASC LIMIT 1`. -/
def firstContentByRole (db : Db) (conversationId role : String) :
    Option String :=
  ((sortBy tsLe (db.messages.filter (fun m =>
    m.conversation_id == conversationId && m.role == role))).head?).map
    (fun m => m.content)

/-- JavaScript `x || 'Untitled'` applied to the `first_prompt` column:
NULL and the empty string are falsy. -/
def jsOrUntitled (firstPrompt : Option String) : String :=
  match firstPrompt with
  | none => "Untitled"
  | some s => if s == "" then "Untitled" else s

/-- JavaScript `first_answer ? first_answer.substring(0, 100) : ''`. -/
def previewOf (firstAnswer : Option String) : String :=
  match firstAnswer with
  | none => ""
  | some s => if s == "" then "" else jsSubstring s 100

/-- Summary shape returned by getAllConversations after the mapping that
adds `title`/`preview` and deletes the two subquery columns. -/
structure ConversationSummary where
  id : String
  created_at : Nat
  updated_at : Nat
  message_count : Nat
  starred : Bool
  archived : Bool
  title : String
  preview : String
deriving Repr, DecidableEq

/-- Summary built for one selected row. -/
def toSummary (db : Db) (c : ConversationRow) : ConversationSummary :=
  { id := c.id
    created_at := c.created_at
    updated_at := c.updated_at
    message_count := c.message_count
    starred := c.starred
    archived := c.archived
    title := generateTitle (some (jsOrUntitled
      (firstContentByRole db c.id "user")))
    preview := previewOf (firstContentByRole db c.id "assistant") }

/-- ConversationService.getAllConversations: WHERE clause from the
filters, `ORDER BY updated_at DESC`, `LIMIT ? OFFSET ?`, then the title
and preview mapping. -/
def getAllConversations (db : Db) (limit offset : Nat)
    (filters : Filters) : List ConversationSummary :=
  let selected := (sortBy updatedAtDesc (db.conversations.filter fun c =>
    archivedClause filters c && starredClause filters c)).drop offset
  (selected.take limit).map (toSummary db)

/-- Value bound into an UPDATE statement by updateConversation. -/
inductive UpdateValue
  | str (v : String)
  | flag (v : Bool)
deriving Repr, DecidableEq

/-- Allow-list of updatable columns in updateConversation. -/
def allowedUpdateKeys : List String := ["title", "starred", "archived"]

/-- Effect of one `key = ?` SET fragment on a matching row. Pairs whose
value type does not fit the column never arise from the renderer callers
and leave the row unchanged. -/
def applySet (c : ConversationRow) (kv : String × UpdateValue) :
    ConversationRow :=
  if kv.1 == "title" then
    match kv.2 with
    | .str v => { c with title := some v }
    | _ => c
  else if kv.1 == "starred" then
    match kv.2 with
    | .flag v => { c with starred := v }
    | _ => c
  else if kv.1 == "archived" then
    match kv.2 with
    | .flag v => { c with archived := v }
    | _ => c
  else c

/-- ConversationService.updateConversation: keep the pairs whose key is on
the allow-list; when none remain, return with no write at all; otherwise
one UPDATE applies the kept SET fragments plus `updated_at = ?` to the
rows matching the id. The `updates` argument lists the object entries in
`Object.keys` order. -/
def updateConversation (db : Db) (conversationId : String)
    (updates : List (String × UpdateValue)) (now : Nat) : Db :=
  let sets := updates.filter (fun kv => allowedUpdateKeys.contains kv.1)
  if sets.isEmpty then db
  else
    { db with
        conversations := db.conversations.map fun c =>
          if c.id == conversationId then
            { sets.foldl applySet c with updated_at := now }
          else c }

/-- ConversationService.deleteConversation: the single `DELETE FROM
conversations WHERE id = ?`; the messages change is the engine acting on
the `ON DELETE CASCADE` foreign key (enabled by the
`foreign_keys = ON` pragma in DatabaseService.initialize), not a second
statement. -/
def deleteConversation (db : Db) (conversationId : String) : Db :=
  { conversations := db.conversations.filter
      (fun c => !(c.id == conversationId))
    messages := db.messages.filter
      (fun m => !(m.conversation_id == conversationId)) }

/-- One saveMessage call of a sequence: the role, content and error
arguments together with the id and timestamp the environment supplies for
that call. -/
structure SaveCall where
  role : String
  content : String
  error : Bool
  msgId : String
  now : Nat
deriving Repr, DecidableEq

/-- Sequential saveMessage calls against one conversation; stops at the
first engine error, as a thrown better-sqlite3 error would. -/
def runSaves (db : Db) (conversationId : String) :
    List SaveCall → Option Db
  | [] => some db
  | call :: rest =>
    match saveMessage db conversationId call.role call.content call.error
        call.msgId call.now with
    | none => none
    | some (db1, _) => runSaves db1 conversationId rest

/-- One item of the saveCompleteConversation payload, with the id and
timestamp supplied for each of the two inserts it triggers. -/
structure ConvItem where
  prompt : String
  answer : String
  error : Bool
  userSupply : String × Nat
  assistantSupply : String × Nat
deriving Repr, DecidableEq

/-- The two saveMessage calls the forEach body issues for one item: a
user message with the prompt, then an assistant message with the answer
and the item error flag (`item.error || false`). -/
def itemCalls (item : ConvItem) : List SaveCall :=
  [{ role := "user", content := item.prompt, error := false
     msgId := item.userSupply.1, now := item.userSupply.2 },
   { role := "assistant", content := item.answer, error := item.error
     msgId := item.assistantSupply.1, now := item.assistantSupply.2 }]

/-- ConversationService.saveCompleteConversation: createConversation, then
for each item in order a user message followed by an assistant message;
returns the createConversation result. -/
def saveCompleteConversation (db : Db) (screenshotDataUrl : Option String)
    (items : List ConvItem) (convId : String) (convNow : Nat) :
    Option (Db × CreatedConversation) :=
  match createConversation db screenshotDataUrl convId convNow with
  | none => none
  | some (db0, created) =>
    match runSaves db0 created.id (items.flatMap itemCalls) with
    | none => none
    | some db1 => some (db1, created)

/-! ### DatabaseService migrator and migration 001

The migrator state tracks which tables exist and the contents of the
`metadata` table. Within one `runMigrations` call every `Date.now()`
reading is modelled by the single `now` argument; the value is only
stored in the never-read `updated_at` column of `metadata`. -/

/-- Row of the `metadata` table. -/
structure MetaRow where
  key : String
  value : String
  updated_at : Nat
deriving Repr, DecidableEq

/-- Migrator-level view of the database file. -/
structure MigDb where
  hasConversationsTable : Bool
  hasMessagesTable : Bool
  hasMetadataTable : Bool
  metadata : List MetaRow
deriving Repr, DecidableEq

/-- A fresh (empty) database file. -/
def freshMigDb : MigDb :=
  { hasConversationsTable := false
    hasMessagesTable := false
    hasMetadataTable := false
    metadata := [] }

/-- SQLite `INSERT OR REPLACE` keyed on the metadata PRIMARY KEY. -/
def insertOrReplaceMeta (md : List MetaRow) (key value : String)
    (now : Nat) : List MetaRow :=
  (md.filter (fun r => !(r.key == key))) ++
    [{ key := key, value := value, updated_at := now }]

/-- Migration module loaded by loadMigrations. -/
structure Migration where
  version : Nat
  up : MigDb → Nat → MigDb

/-- The `up` of 001_initial_schema.js: three `CREATE TABLE IF NOT EXISTS`
blocks (safe to re-run), then `INSERT OR REPLACE` of the schema version
record with value '1'. -/
def migration001up (db : MigDb) (now : Nat) : MigDb :=
  { hasConversationsTable := true
    hasMessagesTable := true
    hasMetadataTable := true
    metadata := insertOrReplaceMeta db.metadata "schema_version" "1" now }

/-- The migration list produced by loadMigrations from the migrations
directory, which holds the single file 001_initial_schema.js. -/
def loadMigrations : List Migration :=
  [{ version := 1, up := migration001up }]

/-- Model of `parseInt(value, 10)` on the plain decimal numerals this
code stores (every stored value is `version.toString()`); `none` models
the NaN result on anything else. -/
def parseDecimal (s : String) : Option Nat :=
  if !s.data.isEmpty && s.data.all (fun c => c.isDigit) then
    some (s.data.foldl (fun n c => n * 10 + (c.toNat - 48)) 0)
  else none

/-- DatabaseService.getCurrentVersion: `SELECT value FROM metadata WHERE
key = ?`; a missing table throws and the catch yields 0, a missing row
yields 0, and a stored value is read with `parseInt`. -/
def getCurrentVersion (db : MigDb) : Option Nat :=
  if db.hasMetadataTable then
    match db.metadata.find? (fun r => r.key == "schema_version") with
    | none => some 0
    | some r => parseDecimal r.value
  else some 0

/-- DatabaseService.setVersion: `INSERT OR REPLACE` of the version record
with `version.toString()`. -/
def setVersion (db : MigDb) (version : Nat) (now : Nat) : MigDb :=
  { db with
      metadata := insertOrReplaceMeta db.metadata "schema_version"
        (toString version) now }

/-- Steps a run starting from `db` will apply, in application order:
filter to `m.version > currentVersion` (every comparison with NaN is
false), then sort ascending by version. -/
def pendingMigrations (db : MigDb) : List Migration :=
  sortBy (fun a b => a.version ≤ b.version)
    (loadMigrations.filter fun m =>
      match getCurrentVersion db with
      | some v => v < m.version
      | none => false)

/-- DatabaseService.runMigrations: apply each pending step in order and
write its version back after it. -/
def runMigrations (db : MigDb) (now : Nat) : MigDb :=
  (pendingMigrations db).foldl
    (fun d m => setVersion (m.up d now) m.version now) db

/-! ### Lemmas about saveMessage sequences -/

/-- Row inserted by one saveMessage call of a sequence. -/
def saveRow (conversationId : String) (call : SaveCall) : MessageRow :=
  { id := call.msgId
    conversation_id := conversationId
    role := call.role
    content := call.content
    timestamp := call.now
    error := if call.error then 1 else 0 }

/-- Combined effect of the two UPDATE statements of saveMessage on one
conversation row. -/
def saveBump (conversationId : String) (now : Nat)
    (c : ConversationRow) : ConversationRow :=
  if c.id == conversationId then
    { c with updated_at := now, message_count := c.message_count + 1 }
  else c

theorem saveBump_id (conversationId : String) (now : Nat)
    (c : ConversationRow) :
    (saveBump conversationId now c).id = c.id := by
  unfold saveBump
  split <;> rfl

theorem find?_congr_pred {p q : α → Bool} (h : ∀ a, p a = q a) :
    ∀ l : List α, l.find? p = l.find? q
  | [] => rfl
  | x :: xs => by
    rw [List.find?_cons, List.find?_cons, h x]
    cases q x <;> simp [find?_congr_pred h xs]

theorem saveMessage_some_spec {db : Db} {cid role content : String}
    {err : Bool} {mid : String} {now : Nat} {db' : Db} {sm : SavedMessage}
    (h : saveMessage db cid role content err mid now = some (db', sm)) :
    sm = { id := mid, timestamp := now }
    ∧ db'.messages = db.messages ++
        [{ id := mid, conversation_id := cid, role := role,
           content := content, timestamp := now,
           error := if err then 1 else 0 }]
    ∧ db'.conversations = db.conversations.map (saveBump cid now)
    ∧ db.conversations.any (fun c => c.id == cid) = true
    ∧ db.messages.any (fun m => m.id == mid) = false := by
  by_cases h1 : db.messages.any (fun m => m.id == mid)
  · simp [saveMessage, h1] at h
  · by_cases h2 : db.conversations.any (fun c => c.id == cid)
    · simp only [saveMessage, h1, if_false, h2, if_true, Bool.false_eq_true,
        Option.some.injEq, Prod.mk.injEq] at h
      obtain ⟨hdb, hsm⟩ := h
      refine ⟨hsm.symm, ?_, ?_, h2, by simpa using h1⟩
      · rw [← hdb]
        rfl
      · rw [← hdb]
        show (db.conversations.map _).map _ = _
        rw [List.map_map]
        refine List.map_congr_left fun c _ => ?_
        by_cases hc : c.id == cid
        · simp [Function.comp, saveBump, hc]
        · simp [Function.comp, saveBump, hc]
    · simp [saveMessage, h1, h2] at h

theorem getConversation_map_saveBump (l : List ConversationRow)
    (ms ms' : List MessageRow) (cid : String) (now : Nat) :
    getConversation { conversations := l.map (saveBump cid now),
                      messages := ms' } cid
      = (getConversation { conversations := l, messages := ms } cid).map
          (saveBump cid now) := by
  show (l.map (saveBump cid now)).find? _ = (l.find? _).map _
  rw [List.find?_map]
  rw [find?_congr_pred (fun c => ?_) l]
  show ((saveBump cid now c).id == cid) = (c.id == cid)
  rw [saveBump_id]

theorem runSaves_some_spec (cid : String) (calls : List SaveCall) :
    ∀ (db db' : Db), runSaves db cid calls = some db' →
      db'.messages = db.messages ++ calls.map (saveRow cid)
      ∧ (getConversation db' cid).map (fun c => c.message_count)
          = (getConversation db cid).map
              (fun c => c.message_count + calls.length)
      ∧ db'.conversations.length = db.conversations.length := by
  induction calls with
  | nil =>
    intro db db' h
    simp only [runSaves, Option.some.injEq] at h
    subst h
    simp
  | cons call rest ih =>
    intro db db' h
    simp only [runSaves] at h
    rcases hsave : saveMessage db cid call.role call.content call.error
        call.msgId call.now with _ | ⟨db1, sm⟩
    · rw [hsave] at h
      exact absurd h (by simp)
    · rw [hsave] at h
      obtain ⟨-, hmsg, hconv, -, -⟩ := saveMessage_some_spec hsave
      obtain ⟨ihmsg, ihcount, ihlen⟩ := ih db1 db' h
      refine ⟨?_, ?_, ?_⟩
      · rw [ihmsg, hmsg, List.append_assoc]
        rfl
      · rw [ihcount]
        have hg : getConversation db1 cid
            = (getConversation db cid).map (saveBump cid call.now) := by
          show db1.conversations.find? _ = (db.conversations.find? _).map _
          rw [hconv, List.find?_map]
          rw [find?_congr_pred (fun c => ?_) db.conversations]
          show ((saveBump cid call.now c).id == cid) = (c.id == cid)
          rw [saveBump_id]
        rw [hg]
        rcases hfind : getConversation db cid with _ | c
        · rfl
        · have hfind' : db.conversations.find? (fun r => r.id == cid)
              = some c := hfind
          have hc0 := List.find?_some hfind'
          have hc : (c.id == cid) = true := hc0
          have hsb : saveBump cid call.now c
              = { c with updated_at := call.now,
                         message_count := c.message_count + 1 } := by
            simp [saveBump, hc]
          simp only [Option.map_some', hsb, List.length_cons,
            Option.some.injEq]
          omega
      · rw [ihlen, hconv, List.length_map]

/-- Row inserted by a successful createConversation. -/
def newConversationRow (screenshotDataUrl : Option String) (cid : String)
    (now : Nat) : ConversationRow :=
  { id := cid
    screenshot_data_url := screenshotDataUrl
    screenshot_hash := screenshotDataUrl.map calculateHash
    title := none
    created_at := now
    updated_at := now
    message_count := 0
    starred := false
    archived := false }

theorem createConversation_some_spec {db : Db} {sc : Option String}
    {cid : String} {now : Nat} {db0 : Db} {created : CreatedConversation}
    (h : createConversation db sc cid now = some (db0, created)) :
    created = { id := cid, created_at := now }
    ∧ db0.conversations
        = db.conversations ++ [newConversationRow sc cid now]
    ∧ db0.messages = db.messages
    ∧ db.conversations.any (fun c => c.id == cid) = false := by
  by_cases h1 : db.conversations.any (fun c => c.id == cid)
  · simp [createConversation, h1] at h
  · simp only [createConversation, h1, Bool.false_eq_true, if_false,
      Option.some.injEq, Prod.mk.injEq] at h
    obtain ⟨hdb, hcreated⟩ := h
    refine ⟨hcreated.symm, ?_, ?_, by simpa using h1⟩
    · rw [← hdb]
      rfl
    · rw [← hdb]

theorem getConversation_after_create {db : Db} {sc : Option String}
    {cid : String} {now : Nat} {db0 : Db} {created : CreatedConversation}
    (h : createConversation db sc cid now = some (db0, created)) :
    getConversation db0 cid = some (newConversationRow sc cid now) := by
  obtain ⟨-, hconv, -, hany⟩ := createConversation_some_spec h
  show db0.conversations.find? _ = _
  rw [hconv, List.find?_append]
  have hnone : db.conversations.find? (fun c => c.id == cid) = none :=
    List.find?_eq_none.mpr (List.any_eq_false.mp hany)
  rw [hnone, Option.none_or]
  exact List.find?_cons_of_pos [] (by simp [newConversationRow])

/-- Claim C1 helper: a state whose messages never reference `cid`. -/
def NoMessagesFor (db : Db) (cid : String) : Prop :=
  ∀ m ∈ db.messages, m.conversation_id ≠ cid

theorem noMessagesFor_of_fkOk {db : Db} {cid : String} (hfk : FkOk db)
    (hany : db.conversations.any (fun c => c.id == cid) = false) :
    NoMessagesFor db cid := by
  intro m hm heq
  obtain ⟨c, hc, hid⟩ := hfk m hm
  have : ¬(c.id == cid) = true := List.any_eq_false.mp hany c hc
  exact this (by simp [hid, heq])

/-- Claim C1. For every conversation, messageCount equals the number of
message rows referencing it: immediately after createConversation it is
0, and after any sequence of N successful saveMessage calls against that
conversation, getConversation(id).messageCount = N and
getConversationWithMessages(id).messages.length = N, because saveMessage
increments message_count in the same logical append operation as the
message insert. -/
theorem conversationService_messageCount (db : Db) (sc : Option String)
    (cid : String) (cnow : Nat) (db0 : Db) (created : CreatedConversation)
    (hfk : FkOk db)
    (hc : createConversation db sc cid cnow = some (db0, created))
    (calls : List SaveCall) (db1 : Db)
    (hr : runSaves db0 cid calls = some db1) :
    (getConversation db0 cid).map (fun c => c.message_count) = some 0
    ∧ (getConversation db1 cid).map (fun c => c.message_count)
        = some calls.length
    ∧ (getConversationWithMessages db1 cid).map
        (fun r => r.messages.length) = some calls.length := by
  obtain ⟨-, -, hmsg0, hany⟩ := createConversation_some_spec hc
  have hget0 := getConversation_after_create hc
  obtain ⟨hmsg1, hcount1, -⟩ := runSaves_some_spec cid calls db0 db1 hr
  have hfilter : db1.messages.filter (fun m => m.conversation_id == cid)
      = calls.map (saveRow cid) := by
    rw [hmsg1, hmsg0, List.filter_append]
    have hleft : db.messages.filter (fun m => m.conversation_id == cid)
        = [] := by
      refine List.filter_eq_nil_iff.mpr fun m hm => ?_
      have := noMessagesFor_of_fkOk hfk hany m hm
      simpa using this
    have hright : (calls.map (saveRow cid)).filter
        (fun m => m.conversation_id == cid) = calls.map (saveRow cid) := by
      refine List.filter_eq_self.mpr fun m hm => ?_
      obtain ⟨call, -, hcall⟩ := List.mem_map.mp hm
      rw [← hcall]
      simp [saveRow]
    rw [hleft, hright]
    rfl
  refine ⟨?_, ?_, ?_⟩
  · rw [hget0]
    rfl
  · rw [hcount1, hget0]
    simp [newConversationRow]
  · rcases hg1 : getConversation db1 cid with _ | c
    · rw [hg1] at hcount1
      rw [hget0] at hcount1
      simp at hcount1
    · show (Option.map _ (getConversation db1 cid)).map _ = _
      rw [hg1]
      simp only [Option.map_some']
      rw [hfilter, List.length_map, length_sortBy, List.length_map]

/-- Witness for claim C1 at a concrete run: create one conversation and
save two messages. -/
def c1Calls : List SaveCall :=
  [{ role := "user", content := "What is this?", error := false,
     msgId := "m1", now := 11 },
   { role := "assistant", content := "A screenshot.", error := false,
     msgId := "m2", now := 12 }]

/-- Empty database, as produced by a fresh schema. -/
def emptyDb : Db := { conversations := [], messages := [] }

/-- State right after the witness createConversation call. -/
def c1Db0 : Db :=
  { conversations := [newConversationRow none "c1" 10], messages := [] }

/-- State after the two witness saveMessage calls. -/
def c1Db1 : Db :=
  { conversations := [{ newConversationRow none "c1" 10 with
      updated_at := 12, message_count := 2 }]
    messages :=
      [{ id := "m1", conversation_id := "c1", role := "user",
         content := "What is this?", timestamp := 11, error := 0 },
       { id := "m2", conversation_id := "c1", role := "assistant",
         content := "A screenshot.", timestamp := 12, error := 0 }] }

theorem conversationService_messageCount_witness :
    createConversation emptyDb none "c1" 10
      = some (c1Db0, { id := "c1", created_at := 10 })
    ∧ runSaves c1Db0 "c1" c1Calls = some c1Db1
    ∧ (getConversation c1Db1 "c1").map (fun c => c.message_count) = some 2
    ∧ (getConversationWithMessages c1Db1 "c1").map
        (fun r => r.messages.length) = some 2 := by
  have h0 : createConversation emptyDb none "c1" 10
      = some (c1Db0, { id := "c1", created_at := 10 }) := by decide
  have h1 : runSaves c1Db0 "c1" c1Calls = some c1Db1 := by decide
  have hmain := conversationService_messageCount emptyDb none "c1" 10
    c1Db0 { id := "c1", created_at := 10 }
    (by intro m hm; simp [emptyDb] at hm) h0 c1Calls c1Db1 h1
  exact ⟨h0, h1, hmain.2.1, hmain.2.2⟩

/-! ### Listing membership -/

theorem mem_getAllConversations {db : Db} {limit offset : Nat}
    {f : Filters} {s : ConversationSummary}
    (h : s ∈ getAllConversations db limit offset f) :
    ∃ c ∈ db.conversations, s = toSummary db c
      ∧ archivedClause f c = true ∧ starredClause f c = true := by
  unfold getAllConversations at h
  obtain ⟨c, hc, hs⟩ := List.mem_map.mp h
  have hc2 := List.mem_of_mem_drop (List.mem_of_mem_take hc)
  have hc3 := mem_sortBy.mp hc2
  obtain ⟨hmem, hpred⟩ := List.mem_filter.mp hc3
  rw [Bool.and_eq_true] at hpred
  obtain ⟨h1, h2⟩ := hpred
  exact ⟨c, hmem, hs.symm, h1, h2⟩

/-! ### Claim C2 -/

/-- Claim C2. After deleteConversation(id) the conversation is gone and
no message row referencing that id remains retrievable: the single
DELETE on the conversations row removes all child messages via the
cascade rule, so no message outlives its conversation. -/
theorem deleteConversation_cascade (db : Db) (cid : String) :
    getConversation (deleteConversation db cid) cid = none
    ∧ (∀ m ∈ (deleteConversation db cid).messages,
        m.conversation_id ≠ cid)
    ∧ getConversationWithMessages (deleteConversation db cid) cid = none
    ∧ ∀ limit offset f s,
        s ∈ getAllConversations (deleteConversation db cid) limit offset f
        → s.id ≠ cid := by
  have hnone : getConversation (deleteConversation db cid) cid = none := by
    refine List.find?_eq_none.mpr fun c hcmem => ?_
    have hflt := (List.mem_filter.mp hcmem).2
    simpa using hflt
  refine ⟨hnone, ?_, ?_, ?_⟩
  · intro m hm heq
    have hflt := (List.mem_filter.mp hm).2
    simp [heq] at hflt
  · show (getConversation (deleteConversation db cid) cid).map _ = none
    rw [hnone]
    rfl
  · intro limit offset f s hs heq
    obtain ⟨c, hcmem, hsummary, -, -⟩ := mem_getAllConversations hs
    have hflt := (List.mem_filter.mp hcmem).2
    have hid : s.id = c.id := by rw [hsummary]; rfl
    rw [hid] at heq
    simp [heq] at hflt

/-- Two-conversation database used by the claim C2 witness. -/
def c2Db : Db :=
  { conversations :=
      [{ id := "c1", screenshot_data_url := none, screenshot_hash := none,
         title := none, created_at := 1, updated_at := 3,
         message_count := 1, starred := false, archived := false },
       { id := "c2", screenshot_data_url := none, screenshot_hash := none,
         title := none, created_at := 2, updated_at := 5,
         message_count := 1, starred := false, archived := false }]
    messages :=
      [{ id := "m1", conversation_id := "c1", role := "user",
         content := "hello", timestamp := 3, error := 0 },
       { id := "m2", conversation_id := "c2", role := "user",
         content := "other", timestamp := 5, error := 0 }] }

/-- Surviving message row of the claim C2 witness database. -/
def c2Survivor : MessageRow :=
  { id := "m2", conversation_id := "c2", role := "user",
    content := "other", timestamp := 5, error := 0 }

theorem deleteConversation_cascade_witness :
    getConversation (deleteConversation c2Db "c1") "c1" = none
    ∧ c2Survivor.conversation_id ≠ "c1"
    ∧ (toSummary (deleteConversation c2Db "c1")
        { id := "c2", screenshot_data_url := none, screenshot_hash := none,
          title := none, created_at := 2, updated_at := 5,
          message_count := 1, starred := false,
          archived := false }).id ≠ "c1" := by
  have h := deleteConversation_cascade c2Db "c1"
  refine ⟨h.1, h.2.1 c2Survivor (by decide), ?_⟩
  exact h.2.2.2 100 0 {} _ (by decide)

/-! ### Claim C3 -/

/-- Database with one conversation and no messages, for the claim C3
counterexample: the listing feeds `first_prompt || 'Untitled'` into
generateTitle, so the fallback inside generateTitle is never reached from
the listing. -/
def c3Db : Db :=
  { conversations :=
      [{ id := "c1", screenshot_data_url := none, screenshot_hash := none,
         title := none, created_at := 10, updated_at := 10,
         message_count := 0, starred := false, archived := false }]
    messages := [] }

/-- Counterexample to claim C3 as stated: a listed conversation with no
user message is titled with the literal "Untitled", not the fallback
literal "Untitled Conversation". -/
theorem listedTitle_fallback_counterexample :
    (getAllConversations c3Db 100 0 {}).map (fun s => s.title)
      = ["Untitled"]
    ∧ ("Untitled" : String) ≠ "Untitled Conversation" := by
  constructor
  · decide
  · decide

/-- Claim C3 as amended. The title of every listed conversation comes
from generateTitle applied to the first user message with the JavaScript
falsy fallback "Untitled": a nonempty first user message is trimmed and
truncated to 50 characters with an ellipsis marker exactly when
truncation occurred (at most 50 trimmed characters are returned
unmodified, more yield exactly the first 50 plus the marker); with no
user message the listed title is the literal "Untitled". -/
theorem listedTitle_algorithm (db : Db) (limit offset : Nat)
    (f : Filters) :
    ∀ s ∈ getAllConversations db limit offset f,
      s.title = generateTitle (some (jsOrUntitled
        (firstContentByRole db s.id "user")))
      ∧ (firstContentByRole db s.id "user" = none →
          s.title = "Untitled")
      ∧ ∀ p, firstContentByRole db s.id "user" = some p →
          (p == "") = false →
          (s.title =
            if jsLength (jsSubstring (jsTrim p) 50) < jsLength (jsTrim p)
            then jsSubstring (jsTrim p) 50 ++ "..."
            else jsSubstring (jsTrim p) 50)
          ∧ (jsLength (jsTrim p) ≤ 50 → s.title = jsTrim p)
          ∧ (50 < jsLength (jsTrim p) →
              s.title = jsSubstring (jsTrim p) 50 ++ "..."
              ∧ jsLength (jsSubstring (jsTrim p) 50) = 50) := by
  intro s hs
  obtain ⟨c, -, hsum, -, -⟩ := mem_getAllConversations hs
  have hid : s.id = c.id := by rw [hsum]; rfl
  have htitle : s.title = generateTitle (some (jsOrUntitled
      (firstContentByRole db c.id "user"))) := by rw [hsum]; rfl
  rw [hid]
  refine ⟨htitle, ?_, ?_⟩
  · intro hn
    rw [htitle, hn]
    decide
  · intro p hp hpne
    rw [htitle, hp]
    have hj : jsOrUntitled (some p) = p := by simp [jsOrUntitled, hpne]
    rw [hj]
    have hg : generateTitle (some p)
        = if jsLength (jsSubstring (jsTrim p) 50) < jsLength (jsTrim p)
          then jsSubstring (jsTrim p) 50 ++ "..."
          else jsSubstring (jsTrim p) 50 := by
      simp [generateTitle, hpne]
    refine ⟨hg, ?_, ?_⟩
    · intro hle
      have hsub : jsSubstring (jsTrim p) 50 = jsTrim p := by
        show String.mk _ = _
        rw [List.take_of_length_le hle]
      rw [hg, hsub]
      simp
    · intro hgt
      have hcond : jsLength (jsSubstring (jsTrim p) 50)
          < jsLength (jsTrim p) := by
        rw [jsLength_jsSubstring]
        omega
      rw [hg, if_pos hcond]
      exact ⟨rfl, by rw [jsLength_jsSubstring]; omega⟩

/-- Conversation row of the claim C3 witness database. -/
def c3Row2 : ConversationRow :=
  { id := "c1", screenshot_data_url := none, screenshot_hash := none,
    title := none, created_at := 10, updated_at := 11,
    message_count := 1, starred := false, archived := false }

/-- Database whose single conversation has a 49-character first user
message. -/
def c3Db2 : Db :=
  { conversations := [c3Row2]
    messages :=
      [{ id := "m1", conversation_id := "c1", role := "user",
         content := "Explain this screenshot of a stack trace please",
         timestamp := 11, error := 0 }] }

theorem listedTitle_algorithm_witness :
    (toSummary c3Db2 c3Row2).title
      = "Explain this screenshot of a stack trace please" := by
  have h := listedTitle_algorithm c3Db2 100 0 {} (toSummary c3Db2 c3Row2)
    (by decide)
  have h2 := (h.2.2 "Explain this screenshot of a stack trace please"
    (by decide) (by decide)).2.1 (by decide)
  rw [h2]
  decide

/-! ### Claim C4 -/

theorem getConversation_of_bumped {db' db : Db} {cid : String}
    {now : Nat}
    (h : db'.conversations = db.conversations.map (saveBump cid now)) :
    getConversation db' cid
      = (getConversation db cid).map (saveBump cid now) := by
  show db'.conversations.find? _ = (db.conversations.find? _).map _
  rw [h, List.find?_map,
    find?_congr_pred (fun c => ?_) db.conversations]
  show ((saveBump cid now c).id == cid) = (c.id == cid)
  rw [saveBump_id]

/-- Database with one message-free conversation, for claim C4. -/
def c4Db : Db :=
  { conversations :=
      [{ id := "c1", screenshot_data_url := none, screenshot_hash := none,
         title := none, created_at := 10, updated_at := 10,
         message_count := 0, starred := false, archived := false }]
    messages := [] }

/-- Counterexample to claim C4 as stated: a saveMessage call whose role
is "system" is not rejected — the row is inserted bearing that role, and
the parent conversation's messageCount moves from 0 to 1 and updatedAt
from 10 to 11. -/
theorem saveMessage_role_counterexample :
    (saveMessage c4Db "c1" "system" "hello" false "m1" 11).map
        (fun p => (p.1.messages.map (fun m => (m.role, m.content)),
          (getConversation p.1 "c1").map
            (fun c => (c.message_count, c.updated_at))))
      = some ([("system", "hello")], some (1, 11)) := by
  decide

/-- Claim C4 as amended. saveMessage performs no role validation: a call
with any role value whatsoever — given only that the conversation exists
and the generated message id is fresh — succeeds, inserts exactly one
message row bearing that role, increments the parent messageCount by one
and sets its updatedAt to now, exactly as for a permitted role; role
validity is a documented caller precondition, not an enforced check. -/
theorem saveMessage_no_role_validation (db : Db)
    (cid role content : String) (err : Bool) (mid : String) (now : Nat)
    (hex : db.conversations.any (fun c => c.id == cid) = true)
    (hfresh : db.messages.any (fun m => m.id == mid) = false) :
    ∃ db', saveMessage db cid role content err mid now
        = some (db', { id := mid, timestamp := now })
      ∧ db'.messages = db.messages ++
          [{ id := mid, conversation_id := cid, role := role,
             content := content, timestamp := now,
             error := if err then 1 else 0 }]
      ∧ (getConversation db' cid).map (fun c => c.message_count)
          = (getConversation db cid).map (fun c => c.message_count + 1)
      ∧ (getConversation db' cid).map (fun c => c.updated_at)
          = some now := by
  rcases hres : saveMessage db cid role content err mid now
      with _ | ⟨db', sm⟩
  · exfalso
    simp [saveMessage, hfresh, hex] at hres
  · obtain ⟨hsm, hmsg, hconv, -, -⟩ := saveMessage_some_spec hres
    subst hsm
    have hg := getConversation_of_bumped hconv
    rcases hfind : getConversation db cid with _ | c
    · exfalso
      have hfind' : db.conversations.find? (fun c => c.id == cid)
          = none := hfind
      obtain ⟨c, hcmem, hcp⟩ := List.any_eq_true.mp hex
      exact (List.find?_eq_none.mp hfind' c hcmem) hcp
    · have hfind' : db.conversations.find? (fun r => r.id == cid)
          = some c := hfind
      have hc0 := List.find?_some hfind'
      have hc : (c.id == cid) = true := hc0
      have hsb : saveBump cid now c
          = { c with updated_at := now,
                     message_count := c.message_count + 1 } := by
        simp [saveBump, hc]
      refine ⟨db', rfl, hmsg, ?_, ?_⟩
      · rw [hg, hfind]
        simp [hsb]
      · rw [hg, hfind]
        simp [hsb]

theorem saveMessage_no_role_validation_witness :
    (saveMessage c4Db "c1" "bogus" "x" true "m9" 12).isSome = true := by
  obtain ⟨db', hres, -, -, -⟩ := saveMessage_no_role_validation c4Db "c1"
    "bogus" "x" true "m9" 12 (by decide) (by decide)
  rw [hres]
  rfl

/-! ### Claim C5 -/

theorem updatedAtDesc_total (a b : ConversationRow) :
    updatedAtDesc a b = true ∨ updatedAtDesc b a = true := by
  unfold updatedAtDesc
  rcases Nat.le_total b.updated_at a.updated_at with h | h
  · exact Or.inl (decide_eq_true h)
  · exact Or.inr (decide_eq_true h)

theorem updatedAtDesc_trans (a b c : ConversationRow)
    (h1 : updatedAtDesc a b = true) (h2 : updatedAtDesc b c = true) :
    updatedAtDesc a c = true := by
  unfold updatedAtDesc at h1 h2 ⊢
  exact decide_eq_true
    (Nat.le_trans (of_decide_eq_true h2) (of_decide_eq_true h1))

/-- Claim C5. getAllConversations returns summaries ordered by updatedAt
descending; filters.archived true keeps only archived rows, false or
omitted keeps only non-archived rows; filters.starred true additionally
restricts to starred rows without overriding the archived default, so a
starred-only filter never returns an archived conversation. -/
theorem getAllConversations_order_filters (db : Db)
    (limit offset : Nat) (f : Filters) :
    List.Pairwise (fun a b => b.updated_at ≤ a.updated_at)
      (getAllConversations db limit offset f)
    ∧ ∀ s ∈ getAllConversations db limit offset f,
        (f.archived = some true → s.archived = true)
        ∧ (f.archived = some false → s.archived = false)
        ∧ (f.archived = none → s.archived = false)
        ∧ (f.starred = some true → s.starred = true) := by
  constructor
  · unfold getAllConversations
    rw [List.pairwise_map]
    have hs := sortBy_sorted updatedAtDesc updatedAtDesc_total
      updatedAtDesc_trans
      (db.conversations.filter fun c =>
        archivedClause f c && starredClause f c)
    have hsub : (((sortBy updatedAtDesc
        (db.conversations.filter fun c =>
          archivedClause f c && starredClause f c)).drop offset).take
            limit).Sublist
        (sortBy updatedAtDesc (db.conversations.filter fun c =>
          archivedClause f c && starredClause f c)) :=
      (List.take_sublist _ _).trans (List.drop_sublist _ _)
    refine (List.Pairwise.sublist hsub hs).imp ?_
    intro a b h
    exact of_decide_eq_true h
  · intro s hs
    obtain ⟨c, -, hsum, harch, hstar⟩ := mem_getAllConversations hs
    have harchs : s.archived = c.archived := by rw [hsum]; rfl
    have hstars : s.starred = c.starred := by rw [hsum]; rfl
    refine ⟨?_, ?_, ?_, ?_⟩ <;> intro hf
    · simp only [archivedClause, hf] at harch
      rw [harchs]
      exact harch
    · simp only [archivedClause, hf] at harch
      rw [harchs]
      simpa using harch
    · simp only [archivedClause, hf] at harch
      rw [harchs]
      simpa using harch
    · simp only [starredClause, hf] at hstar
      rw [hstars]
      exact hstar

/-- Starred, non-archived conversation row of the claim C5 witness. -/
def c5Row : ConversationRow :=
  { id := "c1", screenshot_data_url := none, screenshot_hash := none,
    title := none, created_at := 1, updated_at := 20,
    message_count := 0, starred := true, archived := false }

/-- Witness database for claim C5: one starred and one archived
conversation. -/
def c5Db : Db :=
  { conversations :=
      [c5Row,
       { id := "c2", screenshot_data_url := none, screenshot_hash := none,
         title := none, created_at := 2, updated_at := 30,
         message_count := 0, starred := false, archived := true }]
    messages := [] }

theorem getAllConversations_order_filters_witness :
    (toSummary c5Db c5Row).archived = false
    ∧ (toSummary c5Db c5Row).starred = true := by
  have h := (getAllConversations_order_filters c5Db 100 0
    { archived := none, starred := some true }).2
    (toSummary c5Db c5Row) (by decide)
  exact ⟨h.2.2.1 rfl, h.2.2.2 rfl⟩

/-! ### Claim C6 -/

theorem applySet_frame (c : ConversationRow)
    (kv : String × UpdateValue) :
    (applySet c kv).id = c.id
    ∧ (applySet c kv).created_at = c.created_at
    ∧ (applySet c kv).message_count = c.message_count
    ∧ (applySet c kv).screenshot_data_url = c.screenshot_data_url
    ∧ (applySet c kv).screenshot_hash = c.screenshot_hash := by
  obtain ⟨k, v⟩ := kv
  unfold applySet
  cases v <;> split_ifs <;> exact ⟨rfl, rfl, rfl, rfl, rfl⟩

theorem applySet_keep_title (c : ConversationRow)
    (kv : String × UpdateValue) (h : ¬kv.1 = "title") :
    (applySet c kv).title = c.title := by
  obtain ⟨k, v⟩ := kv
  unfold applySet
  have hk : (k == "title") = false := by simpa using h
  cases v <;> simp only [hk, Bool.false_eq_true, if_false] <;>
    split_ifs <;> rfl

theorem applySet_keep_starred (c : ConversationRow)
    (kv : String × UpdateValue) (h : ¬kv.1 = "starred") :
    (applySet c kv).starred = c.starred := by
  obtain ⟨k, v⟩ := kv
  unfold applySet
  have hk : (k == "starred") = false := by simpa using h
  cases v <;> simp only [hk, Bool.false_eq_true, if_false] <;>
    split_ifs <;> rfl

theorem applySet_keep_archived (c : ConversationRow)
    (kv : String × UpdateValue) (h : ¬kv.1 = "archived") :
    (applySet c kv).archived = c.archived := by
  obtain ⟨k, v⟩ := kv
  unfold applySet
  have hk : (k == "archived") = false := by simpa using h
  cases v <;> simp only [hk, Bool.false_eq_true, if_false] <;>
    split_ifs <;> rfl

theorem foldl_applySet_frame (sets : List (String × UpdateValue)) :
    ∀ c : ConversationRow,
      (sets.foldl applySet c).id = c.id
      ∧ (sets.foldl applySet c).created_at = c.created_at
      ∧ (sets.foldl applySet c).message_count = c.message_count
      ∧ (sets.foldl applySet c).screenshot_data_url
          = c.screenshot_data_url
      ∧ (sets.foldl applySet c).screenshot_hash = c.screenshot_hash := by
  induction sets with
  | nil => exact fun c => ⟨rfl, rfl, rfl, rfl, rfl⟩
  | cons kv rest ih =>
    intro c
    obtain ⟨h1, h2, h3, h4, h5⟩ := applySet_frame c kv
    obtain ⟨g1, g2, g3, g4, g5⟩ := ih (applySet c kv)
    exact ⟨g1.trans h1, g2.trans h2, g3.trans h3, g4.trans h4,
      g5.trans h5⟩

theorem foldl_applySet_keep_title (sets : List (String × UpdateValue))
    (h : ¬"title" ∈ sets.map Prod.fst) :
    ∀ c : ConversationRow, (sets.foldl applySet c).title = c.title := by
  induction sets with
  | nil => exact fun c => rfl
  | cons kv rest ih =>
    intro c
    have hk : ¬kv.1 = "title" := fun he =>
      h (by simp only [List.map_cons, ← he]; exact List.mem_cons_self _ _)
    have hr : ¬"title" ∈ rest.map Prod.fst := fun he =>
      h (by simp only [List.map_cons]; exact List.mem_cons_of_mem _ he)
    exact (ih hr (applySet c kv)).trans (applySet_keep_title c kv hk)

theorem foldl_applySet_keep_starred (sets : List (String × UpdateValue))
    (h : ¬"starred" ∈ sets.map Prod.fst) :
    ∀ c : ConversationRow,
      (sets.foldl applySet c).starred = c.starred := by
  induction sets with
  | nil => exact fun c => rfl
  | cons kv rest ih =>
    intro c
    have hk : ¬kv.1 = "starred" := fun he =>
      h (by simp only [List.map_cons, ← he]; exact List.mem_cons_self _ _)
    have hr : ¬"starred" ∈ rest.map Prod.fst := fun he =>
      h (by simp only [List.map_cons]; exact List.mem_cons_of_mem _ he)
    exact (ih hr (applySet c kv)).trans (applySet_keep_starred c kv hk)

theorem foldl_applySet_keep_archived (sets : List (String × UpdateValue))
    (h : ¬"archived" ∈ sets.map Prod.fst) :
    ∀ c : ConversationRow,
      (sets.foldl applySet c).archived = c.archived := by
  induction sets with
  | nil => exact fun c => rfl
  | cons kv rest ih =>
    intro c
    have hk : ¬kv.1 = "archived" := fun he =>
      h (by simp only [List.map_cons, ← he]; exact List.mem_cons_self _ _)
    have hr : ¬"archived" ∈ rest.map Prod.fst := fun he =>
      h (by simp only [List.map_cons]; exact List.mem_cons_of_mem _ he)
    exact (ih hr (applySet c kv)).trans (applySet_keep_archived c kv hk)

/-- Claim C6. updateConversation writes only those of title, starred,
archived present in updates, ignores every unknown key (id, createdAt,
messageCount, screenshot fields are never modified), sets updatedAt to
now exactly when at least one recognized key is present, and is a
complete no-op — no write and no updatedAt change — when updates contains
no recognized key. -/
theorem updateConversation_frame (db : Db) (cid : String)
    (updates : List (String × UpdateValue)) (now : Nat) :
    updateConversation db cid
        (updates.filter fun kv => allowedUpdateKeys.contains kv.1) now
      = updateConversation db cid updates now
    ∧ (updateConversation db cid updates now).messages = db.messages
    ∧ (updates.filter (fun kv => allowedUpdateKeys.contains kv.1) = []
        → updateConversation db cid updates now = db)
    ∧ List.Forall₂ (fun c c' =>
        (¬c.id = cid → c' = c)
        ∧ (c.id = cid →
            ¬updates.filter (fun kv => allowedUpdateKeys.contains kv.1)
              = [] →
            c'.id = c.id ∧ c'.created_at = c.created_at
            ∧ c'.message_count = c.message_count
            ∧ c'.screenshot_data_url = c.screenshot_data_url
            ∧ c'.screenshot_hash = c.screenshot_hash
            ∧ c'.updated_at = now
            ∧ (¬"title" ∈ updates.map Prod.fst → c'.title = c.title)
            ∧ (¬"starred" ∈ updates.map Prod.fst
                → c'.starred = c.starred)
            ∧ (¬"archived" ∈ updates.map Prod.fst
                → c'.archived = c.archived)))
        db.conversations
        (updateConversation db cid updates now).conversations := by
  have hff : (updates.filter
        (fun kv => allowedUpdateKeys.contains kv.1)).filter
        (fun kv => allowedUpdateKeys.contains kv.1)
      = updates.filter (fun kv => allowedUpdateKeys.contains kv.1) := by
    rw [List.filter_filter]
    simp
  refine ⟨?_, ?_, ?_, ?_⟩
  · unfold updateConversation
    rw [hff]
  · rcases hsets : updates.filter
        (fun kv => allowedUpdateKeys.contains kv.1) with _ | ⟨kv0, rest⟩
    · unfold updateConversation
      rw [hsets]
      rfl
    · unfold updateConversation
      rw [hsets]
      rfl
  · intro h
    unfold updateConversation
    rw [h]
    rfl
  · rcases hsets : updates.filter
        (fun kv => allowedUpdateKeys.contains kv.1) with _ | ⟨kv0, rest⟩
    · have hdb : updateConversation db cid updates now = db := by
        unfold updateConversation
        rw [hsets]
        rfl
      rw [hdb]
      refine List.forall₂_same.mpr fun c _ => ⟨fun _ => rfl, ?_⟩
      intro _ hne
      exact absurd hsets hne
    · have hconv : (updateConversation db cid updates now).conversations
          = db.conversations.map fun c =>
              if c.id == cid then
                { ((kv0 :: rest).foldl applySet c) with updated_at := now }
              else c := by
        unfold updateConversation
        rw [hsets]
        rfl
      rw [hconv]
      rw [List.forall₂_map_right_iff]
      refine List.forall₂_same.mpr fun c _ => ?_
      by_cases hc : c.id = cid
      · have hcb : (c.id == cid) = true := by simpa using hc
        rw [if_pos hcb]
        refine ⟨fun hne => absurd hc hne, fun _ _ => ?_⟩
        obtain ⟨h1, h2, h3, h4, h5⟩ :=
          foldl_applySet_frame (kv0 :: rest) c
        have hkeys : ∀ k : String, ¬k ∈ updates.map Prod.fst →
            ¬k ∈ (kv0 :: rest).map Prod.fst := by
          intro k hk hmem
          obtain ⟨kv, hkvmem, hkvfst⟩ := List.mem_map.mp hmem
          rw [← hsets] at hkvmem
          exact hk (List.mem_map.mpr
            ⟨kv, (List.mem_filter.mp hkvmem).1, hkvfst⟩)
        exact ⟨h1, h2, h3, h4, h5, rfl,
          fun ht => foldl_applySet_keep_title _ (hkeys _ ht) c,
          fun ht => foldl_applySet_keep_starred _ (hkeys _ ht) c,
          fun ht => foldl_applySet_keep_archived _ (hkeys _ ht) c⟩
      · have hcb : (c.id == cid) = false := by simpa using hc
        rw [hcb]
        exact ⟨fun _ => by simp, fun he => absurd he hc⟩

/-- Conversation row of the claim C6 witness database. -/
def c6Row : ConversationRow :=
  { id := "c1", screenshot_data_url := some "data:image/png;base64,AAA",
    screenshot_hash := some (calculateHash "data:image/png;base64,AAA"),
    title := some "kept", created_at := 1, updated_at := 10,
    message_count := 3, starred := false, archived := false }

/-- Witness database for claim C6. -/
def c6Db : Db := { conversations := [c6Row], messages := [] }

theorem updateConversation_frame_witness :
    updateConversation c6Db "c1"
        [("id", UpdateValue.str "evil"), ("bogus", UpdateValue.flag true)]
        99 = c6Db
    ∧ (updateConversation c6Db "c1"
        [("starred", UpdateValue.flag true)] 99).conversations
      = [{ c6Row with starred := true, updated_at := 99 }] := by
  constructor
  · exact (updateConversation_frame c6Db "c1"
      [("id", UpdateValue.str "evil"), ("bogus", UpdateValue.flag true)]
      99).2.2.1 (by decide)
  · decide

/-! ### Claim C7 -/

theorem find?_insertOrReplaceMeta (md : List MetaRow)
    (key value : String) (now : Nat) :
    (insertOrReplaceMeta md key value now).find? (fun r => r.key == key)
      = some { key := key, value := value, updated_at := now } := by
  unfold insertOrReplaceMeta
  rw [List.find?_append]
  have h1 : (md.filter fun r => !(r.key == key)).find?
      (fun r => r.key == key) = none := by
    refine List.find?_eq_none.mpr fun r hr => ?_
    have := (List.mem_filter.mp hr).2
    simpa using this
  rw [h1, Option.none_or]
  exact List.find?_cons_of_pos [] (by simp)

theorem pendingMigrations_of_zero {db : MigDb}
    (h : getCurrentVersion db = some 0) :
    pendingMigrations db = loadMigrations := by
  unfold pendingMigrations
  simp only [h]
  rfl

theorem pendingMigrations_of_succ {db : MigDb} (v : Nat)
    (h : getCurrentVersion db = some (v + 1)) :
    pendingMigrations db = [] := by
  unfold pendingMigrations
  simp only [h, loadMigrations]
  have hlt : ¬v + 1 < 1 := by omega
  simp [hlt, sortBy]

theorem pendingMigrations_of_none {db : MigDb}
    (h : getCurrentVersion db = none) : pendingMigrations db = [] := by
  unfold pendingMigrations
  simp only [h, loadMigrations]
  simp [sortBy]

theorem runMigrations_of_pending_nil {db : MigDb} (now : Nat)
    (h : pendingMigrations db = []) : runMigrations db now = db := by
  unfold runMigrations
  rw [h]
  rfl

theorem runMigrations_of_zero {db : MigDb} (now : Nat)
    (h : getCurrentVersion db = some 0) :
    runMigrations db now = setVersion (migration001up db now) 1 now := by
  unfold runMigrations
  rw [pendingMigrations_of_zero h]
  rfl

theorem getCurrentVersion_after_migration (db : MigDb) (now : Nat) :
    getCurrentVersion (setVersion (migration001up db now) 1 now)
      = some 1 := by
  unfold getCurrentVersion
  rw [if_pos (by rfl)]
  have hmeta : (setVersion (migration001up db now) 1 now).metadata
      = insertOrReplaceMeta ((migration001up db now).metadata)
          "schema_version" "1" now := rfl
  rw [hmeta, find?_insertOrReplaceMeta]
  show parseDecimal "1" = some 1
  decide

/-- Claim C7. The migrator applies exactly the migration steps whose
version is strictly greater than the current stored version, in
ascending version order, writing the new version back after each step;
running it twice against the same database is error-free and leaves
nothing pending, and on a fresh database the schema version after the
second run equals the version after the first (the second run applies
zero steps). -/
theorem runMigrations_idempotent (db : MigDb) (t1 t2 : Nat) :
    pendingMigrations (runMigrations db t1) = []
    ∧ runMigrations (runMigrations db t1) t2 = runMigrations db t1
    ∧ (∀ m ∈ pendingMigrations db, ∀ v,
        getCurrentVersion db = some v → v < m.version)
    ∧ List.Pairwise (fun a b => a.version ≤ b.version)
        (pendingMigrations db)
    ∧ getCurrentVersion (runMigrations freshMigDb t1) = some 1
    ∧ getCurrentVersion (runMigrations (runMigrations freshMigDb t1) t2)
        = getCurrentVersion (runMigrations freshMigDb t1) := by
  have hpendnil : ∀ (d : MigDb) (t : Nat),
      pendingMigrations (runMigrations d t) = [] := by
    intro d t
    rcases hcv : getCurrentVersion d with _ | v
    · rw [runMigrations_of_pending_nil t (pendingMigrations_of_none hcv)]
      exact pendingMigrations_of_none hcv
    · rcases v with _ | v
      · rw [runMigrations_of_zero t hcv]
        exact pendingMigrations_of_succ 0
          (getCurrentVersion_after_migration d t)
      · rw [runMigrations_of_pending_nil t
          (pendingMigrations_of_succ v hcv)]
        exact pendingMigrations_of_succ v hcv
  have hidem : ∀ (d : MigDb) (s t : Nat),
      runMigrations (runMigrations d s) t = runMigrations d s :=
    fun d s t => runMigrations_of_pending_nil t (hpendnil d s)
  refine ⟨hpendnil db t1, hidem db t1 t2, ?_, ?_, ?_, ?_⟩
  · intro m hm v hv
    unfold pendingMigrations at hm
    have hm2 := mem_sortBy.mp hm
    have hp := (List.mem_filter.mp hm2).2
    rw [hv] at hp
    exact of_decide_eq_true hp
  · have htot : ∀ a b : Migration,
        (decide (a.version ≤ b.version)) = true
        ∨ (decide (b.version ≤ a.version)) = true := by
      intro a b
      rcases Nat.le_total a.version b.version with h | h
      · exact Or.inl (decide_eq_true h)
      · exact Or.inr (decide_eq_true h)
    have htr : ∀ a b c : Migration,
        (decide (a.version ≤ b.version)) = true
        → (decide (b.version ≤ c.version)) = true
        → (decide (a.version ≤ c.version)) = true := by
      intro a b c h1 h2
      exact decide_eq_true
        (Nat.le_trans (of_decide_eq_true h1) (of_decide_eq_true h2))
    have hs := sortBy_sorted (fun a b : Migration => a.version ≤ b.version)
      htot htr (loadMigrations.filter fun m =>
        match getCurrentVersion db with
        | some v => v < m.version
        | none => false)
    exact hs.imp fun h => of_decide_eq_true h
  · rw [runMigrations_of_zero t1 (by decide)]
    exact getCurrentVersion_after_migration freshMigDb t1
  · rw [hidem freshMigDb t1 t2]

theorem runMigrations_idempotent_witness :
    getCurrentVersion (runMigrations freshMigDb 5) = some 1
    ∧ runMigrations (runMigrations freshMigDb 5) 9
        = runMigrations freshMigDb 5 := by
  have h := runMigrations_idempotent freshMigDb 5 9
  exact ⟨h.2.2.2.2.1, h.2.1⟩

/-! ### Claim C8 -/

theorem tsLe_total (a b : MessageRow) :
    tsLe a b = true ∨ tsLe b a = true := by
  unfold tsLe
  rcases Nat.le_total a.timestamp b.timestamp with h | h
  · exact Or.inl (decide_eq_true h)
  · exact Or.inr (decide_eq_true h)

theorem tsLe_trans (a b c : MessageRow) (h1 : tsLe a b = true)
    (h2 : tsLe b c = true) : tsLe a c = true := by
  unfold tsLe at h1 h2 ⊢
  exact decide_eq_true
    (Nat.le_trans (of_decide_eq_true h1) (of_decide_eq_true h2))

/-- Claim C8. getConversation returns the row for an existing id and the
not-found signal (not an exception) for a missing id;
getConversationWithMessages returns the not-found signal exactly when
getConversation does (never a partial message list), and for an existing
id returns the row plus all its messages in timestamp-ascending order,
each normalized to carry role, content, timestamp and a boolean error. -/
theorem getConversation_contract (db : Db) (cid : String) :
    (getConversation db cid = none ↔ ∀ c ∈ db.conversations, ¬c.id = cid)
    ∧ (∀ c, getConversation db cid = some c →
        c ∈ db.conversations ∧ c.id = cid)
    ∧ (getConversationWithMessages db cid = none
        ↔ getConversation db cid = none)
    ∧ ∀ r, getConversationWithMessages db cid = some r →
        getConversation db cid = some r.row
        ∧ List.Pairwise (fun u1 u2 => u1.timestamp ≤ u2.timestamp)
            r.messages
        ∧ r.messages.length = (db.messages.filter
            (fun m => m.conversation_id == cid)).length
        ∧ ∀ u ∈ r.messages, ∃ m ∈ db.messages, m.conversation_id = cid
            ∧ u.role = m.role ∧ u.content = m.content
            ∧ u.timestamp = m.timestamp ∧ u.error = (m.error == 1) := by
  refine ⟨?_, ?_, ?_, ?_⟩
  · constructor
    · intro h c hc
      have := List.find?_eq_none.mp h c hc
      simpa using this
    · intro h
      refine List.find?_eq_none.mpr fun c hc => ?_
      simpa using h c hc
  · intro c h
    have h' : db.conversations.find? (fun r => r.id == cid) = some c := h
    have hc0 := List.find?_some h'
    exact ⟨List.mem_of_find?_eq_some h', by simpa using hc0⟩
  · show ((getConversation db cid).map _ = none) ↔ _
    exact Option.map_eq_none'
  · intro r h
    rcases hg : getConversation db cid with _ | c
    · rw [show getConversationWithMessages db cid
          = (getConversation db cid).map _ from rfl, hg] at h
      exact absurd h (by simp)
    · rw [show getConversationWithMessages db cid
          = (getConversation db cid).map _ from rfl, hg,
        Option.map_some'] at h
      have hr := Option.some.inj h
      subst hr
      refine ⟨rfl, ?_, ?_, ?_⟩
      · rw [List.pairwise_map]
        have hs := sortBy_sorted tsLe tsLe_total tsLe_trans
          (db.messages.filter (fun m => m.conversation_id == cid))
        exact hs.imp fun hab => of_decide_eq_true hab
      · rw [List.length_map, length_sortBy]
      · intro u hu
        obtain ⟨m, hm, hum⟩ := List.mem_map.mp hu
        obtain ⟨hm2, hp⟩ := List.mem_filter.mp (mem_sortBy.mp hm)
        rw [← hum]
        exact ⟨m, hm2, by simpa using hp, rfl, rfl, rfl, rfl⟩

/-- Conversation row of the claim C8 witness database. -/
def c8Row : ConversationRow :=
  { id := "c1", screenshot_data_url := none, screenshot_hash := none,
    title := none, created_at := 1, updated_at := 7,
    message_count := 2, starred := false, archived := false }

/-- Witness database for claim C8. -/
def c8Db : Db :=
  { conversations := [c8Row]
    messages :=
      [{ id := "m1", conversation_id := "c1", role := "user",
         content := "q", timestamp := 5, error := 0 },
       { id := "m2", conversation_id := "c1", role := "assistant",
         content := "a", timestamp := 7, error := 1 }] }

/-- Expected getConversationWithMessages result in the claim C8
witness. -/
def c8Res : ConversationWithMessages :=
  { row := c8Row
    messages :=
      [{ id := "m1", prompt := some "q", answer := none, role := "user",
         content := "q", timestamp := 5, error := false },
       { id := "m2", prompt := none, answer := some "a",
         role := "assistant", content := "a", timestamp := 7,
         error := true }] }

theorem getConversation_contract_witness :
    getConversation c8Db "nope" = none
    ∧ getConversation c8Db "c1" = some c8Row := by
  refine ⟨(getConversation_contract c8Db "nope").1.mpr (by decide), ?_⟩
  exact ((getConversation_contract c8Db "c1").2.2.2 c8Res (by decide)).1

/-! ### Claim C9 -/

theorem length_itemCalls_flat (items : List ConvItem) :
    (items.flatMap itemCalls).length = 2 * items.length := by
  induction items with
  | nil => rfl
  | cons it rest ih =>
    simp only [List.flatMap_cons, List.length_append, ih, itemCalls,
      List.length_cons, List.length_nil, List.length_cons]
    omega

theorem rolesContents_flat (items : List ConvItem) :
    (items.flatMap itemCalls).map (fun call => (call.role, call.content))
      = items.flatMap fun it =>
          [("user", it.prompt), ("assistant", it.answer)] := by
  induction items with
  | nil => rfl
  | cons it rest ih =>
    simp only [List.flatMap_cons, List.map_append, ih]
    rfl

/-- Claim C9. saveCompleteConversation creates exactly one conversation
and appends, for each item in list order, a user message with the
prompt followed by an assistant message with the answer, so the stored
conversation has exactly 2N messages which read back in alternating
user/assistant order. The timestamps the environment supplies are
non-decreasing, as successive `Date.now()` readings are. -/
theorem saveCompleteConversation_shape (db : Db) (sc : Option String)
    (items : List ConvItem) (convId : String) (convNow : Nat)
    (db' : Db) (created : CreatedConversation)
    (hfk : FkOk db)
    (hmono : List.Pairwise (fun a b => a.now ≤ b.now)
        (items.flatMap itemCalls))
    (h : saveCompleteConversation db sc items convId convNow
        = some (db', created)) :
    created.id = convId
    ∧ db'.conversations.length = db.conversations.length + 1
    ∧ (getConversation db' convId).map (fun c => c.message_count)
        = some (2 * items.length)
    ∧ (getConversationWithMessages db' convId).map
        (fun r => r.messages.map (fun u => (u.role, u.content)))
      = some (items.flatMap fun it =>
          [("user", it.prompt), ("assistant", it.answer)]) := by
  unfold saveCompleteConversation at h
  rcases hc : createConversation db sc convId convNow with _ | ⟨db0, cr⟩
  · rw [hc] at h
    exact absurd h (by simp)
  · rw [hc] at h
    obtain ⟨hcr, hconv0, hmsg0, hany⟩ := createConversation_some_spec hc
    subst hcr
    dsimp only at h
    rcases hr : runSaves db0 convId (items.flatMap itemCalls)
        with _ | db1
    · rw [hr] at h
      exact absurd h (by simp)
    · rw [hr] at h
      have hpair := Option.some.inj h
      have hdb1 : db1 = db' := congrArg Prod.fst hpair
      have hcr2 : ({ id := convId, created_at := convNow }
          : CreatedConversation) = created := congrArg Prod.snd hpair
      subst hdb1
      subst hcr2
      obtain ⟨hmsg1, hcount1, hlen1⟩ :=
        runSaves_some_spec convId (items.flatMap itemCalls) db0 db1 hr
      have hget0 := getConversation_after_create hc
      have hfilter : db1.messages.filter
          (fun m => m.conversation_id == convId)
          = (items.flatMap itemCalls).map (saveRow convId) := by
        rw [hmsg1, hmsg0, List.filter_append]
        have hleft : db.messages.filter
            (fun m => m.conversation_id == convId) = [] := by
          refine List.filter_eq_nil_iff.mpr fun m hm => ?_
          have := noMessagesFor_of_fkOk hfk hany m hm
          simpa using this
        have hright : ((items.flatMap itemCalls).map
            (saveRow convId)).filter
            (fun m => m.conversation_id == convId)
            = (items.flatMap itemCalls).map (saveRow convId) := by
          refine List.filter_eq_self.mpr fun m hm => ?_
          obtain ⟨call, -, hcall⟩ := List.mem_map.mp hm
          rw [← hcall]
          simp [saveRow]
        rw [hleft, hright]
        rfl
      refine ⟨rfl, ?_, ?_, ?_⟩
      · rw [hlen1, hconv0, List.length_append]
        rfl
      · rw [hcount1, hget0, Option.map_some', length_itemCalls_flat]
        show some (0 + 2 * items.length) = _
        rw [Nat.zero_add]
      · rcases hg1 : getConversation db1 convId with _ | c
        · rw [hg1, hget0] at hcount1
          simp at hcount1
        · show (Option.map _ (getConversation db1 convId)).map _ = _
          rw [hg1]
          simp only [Option.map_some']
          rw [hfilter]
          have hsorted : List.Pairwise (fun a b => tsLe a b = true)
              ((items.flatMap itemCalls).map (saveRow convId)) := by
            rw [List.pairwise_map]
            exact hmono.imp fun hab => decide_eq_true hab
          rw [sortBy_eq_self_of_sorted hsorted]
          have hmm : ((((items.flatMap itemCalls).map
              (saveRow convId)).map toUiMessage).map
              (fun u => (u.role, u.content)))
              = (items.flatMap itemCalls).map
                  (fun call => (call.role, call.content)) := by
            rw [List.map_map, List.map_map]
            exact List.map_congr_left fun a _ => rfl
          rw [hmm, rolesContents_flat]

/-- Items of the claim C9 witness run. -/
def c9Items : List ConvItem :=
  [{ prompt := "p1", answer := "a1", error := false,
     userSupply := ("m1", 11), assistantSupply := ("m2", 12) },
   { prompt := "p2", answer := "a2", error := false,
     userSupply := ("m3", 13), assistantSupply := ("m4", 14) }]

/-- Final state of the claim C9 witness run. -/
def c9Db1 : Db :=
  { conversations := [{ newConversationRow none "c1" 10 with
      updated_at := 14, message_count := 4 }]
    messages :=
      [{ id := "m1", conversation_id := "c1", role := "user",
         content := "p1", timestamp := 11, error := 0 },
       { id := "m2", conversation_id := "c1", role := "assistant",
         content := "a1", timestamp := 12, error := 0 },
       { id := "m3", conversation_id := "c1", role := "user",
         content := "p2", timestamp := 13, error := 0 },
       { id := "m4", conversation_id := "c1", role := "assistant",
         content := "a2", timestamp := 14, error := 0 }] }

theorem saveCompleteConversation_shape_witness :
    (getConversationWithMessages c9Db1 "c1").map
        (fun r => r.messages.map (fun u => (u.role, u.content)))
      = some [("user", "p1"), ("assistant", "a1"),
              ("user", "p2"), ("assistant", "a2")] := by
  have h := saveCompleteConversation_shape emptyDb none c9Items "c1" 10
    c9Db1 { id := "c1", created_at := 10 }
    (by intro m hm; simp [emptyDb] at hm) (by decide) (by decide)
  exact h.2.2.2

/-! ### Claim C10 -/

theorem summary_title_formula {db : Db} {limit offset : Nat}
    {f : Filters} {s : ConversationSummary}
    (h : s ∈ getAllConversations db limit offset f) :
    s.title = generateTitle (some (jsOrUntitled
      (firstContentByRole db s.id "user"))) := by
  obtain ⟨c, -, hsum, -, -⟩ := mem_getAllConversations h
  rw [hsum]
  rfl

theorem firstContentByRole_messages_eq {db1 db2 : Db}
    (h : db1.messages = db2.messages) (cid role : String) :
    firstContentByRole db1 cid role = firstContentByRole db2 cid role := by
  unfold firstContentByRole
  rw [h]

theorem updateConversation_messages (db : Db) (cid : String)
    (updates : List (String × UpdateValue)) (now : Nat) :
    (updateConversation db cid updates now).messages = db.messages := by
  rcases hsets : updates.filter
      (fun kv => allowedUpdateKeys.contains kv.1) with _ | ⟨kv0, rest⟩
  · unfold updateConversation
    rw [hsets]
    rfl
  · unfold updateConversation
    rw [hsets]
    rfl

/-- Claim C10. A title stored via updateConversation(id, {title}) is
never reflected in getAllConversations: the listing recomputes every
summary title from the conversation's earliest user message (or the
fallback), so the listed title of a conversation is unchanged by any
rename, while the stored title remains visible through getConversation,
which returns the raw row. -/
theorem listedTitle_independent_of_rename (db : Db) (cid t : String)
    (now : Nat) (l1 o1 : Nat) (f1 : Filters) (l2 o2 : Nat)
    (f2 : Filters) :
    (∀ s' ∈ getAllConversations
        (updateConversation db cid [("title", UpdateValue.str t)] now)
        l1 o1 f1,
      ∀ s ∈ getAllConversations db l2 o2 f2,
        s'.id = s.id → s'.title = s.title)
    ∧ ∀ c, getConversation db cid = some c →
        (getConversation (updateConversation db cid
            [("title", UpdateValue.str t)] now) cid).map
          (fun r => r.title) = some (some t) := by
  constructor
  · intro s' hs' s hs hid
    have h1 := summary_title_formula hs'
    have h2 := summary_title_formula hs
    rw [h1, h2, hid,
      firstContentByRole_messages_eq
        (updateConversation_messages db cid
          [("title", UpdateValue.str t)] now) s.id "user"]
  · intro c hc
    have hconv : (updateConversation db cid
        [("title", UpdateValue.str t)] now).conversations
        = db.conversations.map (fun c =>
            if c.id == cid then
              { ([("title", UpdateValue.str t)].foldl applySet c) with
                  updated_at := now }
            else c) := by
      unfold updateConversation
      rfl
    have hfind : getConversation (updateConversation db cid
        [("title", UpdateValue.str t)] now) cid
        = (db.conversations.find? (fun r => r.id == cid)).map
            (fun c => if c.id == cid then
              { ([("title", UpdateValue.str t)].foldl applySet c) with
                  updated_at := now }
            else c) := by
      show (updateConversation db cid
          [("title", UpdateValue.str t)] now).conversations.find? _ = _
      rw [hconv, List.find?_map,
        find?_congr_pred (fun c => ?_) db.conversations]
      by_cases hcc : (c.id == cid) = true
      · dsimp only [Function.comp]
        rw [if_pos hcc]
        have hfr := (foldl_applySet_frame
          [("title", UpdateValue.str t)] c).1
        show (([("title", UpdateValue.str t)].foldl applySet c).id == cid)
          = (c.id == cid)
        rw [hfr]
      · dsimp only [Function.comp]
        rw [if_neg hcc]
    have hc' : db.conversations.find? (fun r => r.id == cid)
        = some c := hc
    have hcc0 := List.find?_some hc'
    have hcc : (c.id == cid) = true := hcc0
    rw [hfind, hc', Option.map_some', Option.map_some', if_pos hcc]
    show some (([("title", UpdateValue.str t)].foldl applySet c).title)
      = some (some t)
    simp [applySet]

/-- Conversation row of the claim C10 witness database, holding a stored
title. -/
def c10Row : ConversationRow :=
  { id := "c1", screenshot_data_url := none, screenshot_hash := none,
    title := some "old", created_at := 1, updated_at := 10,
    message_count := 1, starred := false, archived := false }

/-- Witness database for claim C10. -/
def c10Db : Db :=
  { conversations := [c10Row]
    messages :=
      [{ id := "m1", conversation_id := "c1", role := "user",
         content := "hello", timestamp := 5, error := 0 }] }

/-- The claim C10 witness row after the rename. -/
def c10RowUpd : ConversationRow :=
  { c10Row with title := some "New", updated_at := 99 }

theorem listedTitle_independent_of_rename_witness :
    (toSummary (updateConversation c10Db "c1"
        [("title", UpdateValue.str "New")] 99) c10RowUpd).title
      = (toSummary c10Db c10Row).title
    ∧ (getConversation (updateConversation c10Db "c1"
        [("title", UpdateValue.str "New")] 99) "c1").map
        (fun r => r.title) = some (some "New") := by
  have h := listedTitle_independent_of_rename c10Db "c1" "New" 99
    100 0 {} 100 0 {}
  exact ⟨h.1 _ (by decide) _ (by decide) rfl, h.2 c10Row (by decide)⟩

end SnapAsk
